import Mathlib

/-!
Verification development for the document-parsing service.

The Python sources under scrutiny are shallowly embedded below:
pure functions become Lean functions over `String` / `List Char` /
`List Nat` (byte strings), external libraries (PIL decoding, the
PaddleOCR engine, the python-docx / pdfplumber object trees) appear as
explicit oracle parameters, and fallible code returns `Except`.

Python semantics conventions used throughout:

* `str.strip()` and the regex class `\s` are modelled on their ASCII
  fragment (the parsers handle ASCII and CJK text, where the notions
  coincide).
* byte strings are `List Nat`; only their length and identity matter to
  the embedded code.
* CPython dictionaries are association lists with last-binding-wins
  lookup.
* Python `list.sort` / `sorted` (Timsort, stable) is modelled by
  `List.insertionSort`, which is likewise stable.
-/

namespace Parsers

-- ======================================================================
-- DEFINITIONS
-- ======================================================================

-- ---------------------------------------------------------------------
-- Generic string helpers (Python semantics)
-- ---------------------------------------------------------------------

/-- Characters treated as whitespace by Python `str.strip()` and by the
regex class `\s`, restricted to ASCII. -/
def pyIsSpace (c : Char) : Bool :=
  c = ' ' || c = '\t' || c = '\n' || c = '\r' || c = '\x0b' || c = '\x0c'

/-- Python `str.strip()` on a character list: drop leading and trailing
whitespace. -/
def pyStripList (l : List Char) : List Char :=
  ((l.dropWhile pyIsSpace).reverse.dropWhile pyIsSpace).reverse

/-- Python `str.strip()`. -/
def pyStrip (s : String) : String := ⟨pyStripList s.data⟩

/-- Python `sep.join(parts)`. -/
def joinSep (sep : String) : List String → String
  | [] => ""
  | [x] => x
  | x :: y :: t => x ++ sep ++ joinSep sep (y :: t)

/-- Concatenation of a list of strings (Python `+=` accumulation in a
loop). -/
def strConcat : List String → String
  | [] => ""
  | s :: t => s ++ strConcat t

/-- Number of occurrences of a character in a string. -/
def countChar (c : Char) (s : String) : Nat := s.data.count c

/-- Split a character list at every occurrence of `sep` (Python
`str.split(sep)` for a one-character separator). -/
def splitCharAux (sep : Char) : List Char → List (List Char)
  | [] => [[]]
  | c :: t =>
    if c = sep then [] :: splitCharAux sep t
    else
      match splitCharAux sep t with
      | [] => [[c]]
      | h :: r => (c :: h) :: r

/-- Drop the trailing empty piece produced by splitting a string that
ends with its separator. -/
def dropFinalEmpty (ps : List (List Char)) : List (List Char) :=
  if ps.getLast? = some [] then ps.dropLast else ps

/-- The lines of a string in the sense of Python `str.splitlines()` for
newline-only line endings: split at every `'\n'` and drop the trailing
empty piece produced by a terminal newline. -/
def pyLines (s : String) : List String :=
  (dropFinalEmpty (splitCharAux '\n' s.data)).map fun l => ⟨l⟩

/-- Python `str.lower()` on an ASCII character. -/
def asciiLowerChar (c : Char) : Char :=
  if 'A' ≤ c ∧ c ≤ 'Z' then Char.ofNat (c.toNat + 32) else c

/-- Python `str.lower()` restricted to ASCII letters. -/
def asciiLower (s : String) : String := ⟨s.data.map asciiLowerChar⟩

-- ---------------------------------------------------------------------
-- `is_background_image` (src/ocr_worker.py)
-- ---------------------------------------------------------------------

/-- Embeds `is_background_image` from `src/ocr_worker.py`.

`decodeDims` is the oracle for `PIL.Image.open(BytesIO(...)).size`; its
`none` result models a decoding exception, in which case the source
conservatively returns `False`.  The source size test
`len(image_bytes) / 1024 > 300` on exact binary floats is equivalent to
`307200 < len(image_bytes)`, embedded here as `300 * 1024 < length`. -/
def is_background_image (decodeDims : List Nat → Option (Nat × Nat))
    (imageBytes : List Nat) (width height : Option Nat) : Bool :=
  if 300 * 1024 < imageBytes.length then true
  else
    match width, height with
    | some w, some h => if 1600 < w && 900 < h then true else false
    | _, _ =>
      match decodeDims imageBytes with
      | some (w, h) => if 1600 < w && 900 < h then true else false
      | none => false

-- ---------------------------------------------------------------------
-- `ocr_worker` (src/ocr_worker.py)
-- ---------------------------------------------------------------------

/-- Abstract OCR runtime: the engine singleton accessor and its two
operations, each of which may raise (modelled by `Except`).  Engine
handles and decoded image arrays are opaque (`Nat` / `List Nat`). -/
structure OcrRuntime where
  getEngine : Except String Nat
  preprocessImage : Nat → List Nat → Except String (List Nat)
  recognize : Nat → List Nat → Except String String

/-- Embeds `ocr_worker` from `src/ocr_worker.py`: run
`get_ocr_engine` / `preprocess_image` / `recognize` inside a `try` whose
every `except` arm returns the empty string. -/
def ocr_worker (rt : OcrRuntime) (imageBytes : List Nat) : String :=
  match (do
    let e ← rt.getEngine
    let arr ← rt.preprocessImage e imageBytes
    rt.recognize e arr : Except String String) with
  | .ok t => t
  | .error _ => ""

/-- An OCR runtime whose engine accessor always raises; used to witness
the failure branch of `ocr_worker`. -/
def failingRuntime : OcrRuntime :=
  ⟨.error "init failed", fun _ _ => .error "bad image", fun _ _ => .error "engine"⟩

-- ---------------------------------------------------------------------
-- Request validation and dispatch (src/grpc/server.py, src/__init__.py)
-- ---------------------------------------------------------------------

/-- The final path component as computed by `pathlib.PurePosixPath.name`:
split on `/`, drop empty and `.` components, take the last component
(or the empty string when nothing is left). -/
def pathName (s : String) : String :=
  let comps := (splitCharAux '/' s.data).filter fun c => !(c == []) && !(c == ['.'])
  match comps.getLast? with
  | some c => ⟨c⟩
  | none => ""

/-- Index of the last occurrence of `c` in `l` (Python `str.rfind`). -/
def rfindIdx (c : Char) (l : List Char) : Option Nat :=
  match l.reverse.findIdx? (· == c) with
  | some j => some (l.length - 1 - j)
  | none => none

/-- `pathlib.Path(...).suffix`: with `name` the final component and `i`
the index of its last dot, the suffix is `name[i:]` when
`0 < i < len(name) - 1` and the empty string otherwise. -/
def pySuffix (s : String) : String :=
  let name := (pathName s).data
  match rfindIdx '.' name with
  | some i => if 0 < i ∧ i < name.length - 1 then ⟨name.drop i⟩ else ""
  | none => ""

/-- The parser classes the factory create_parser can instantiate. -/
inductive ParserKind
  | pdf
  | markdown
  | docx
  | pptx
deriving DecidableEq

/-- The extension table of the factory create_parser in `src/__init__.py`. -/
def parserTable : List (String × ParserKind) :=
  [(".pdf", .pdf), (".md", .markdown), (".markdown", .markdown),
   (".docx", .docx), (".doc", .docx), (".pptx", .pptx)]

/-- Embeds the factory create_parser from `src/__init__.py`: look the
lowercased extension up in the table, `none` modelling the `ValueError`
raised for an unsupported format. -/
def createParser (fileExt : String) : Option ParserKind :=
  (parserTable.find? fun e => e.1 == asciiLower fileExt).map (·.2)

/-- The six extensions recognized by the service. -/
def recognizedExtensions : List String :=
  [".pdf", ".md", ".markdown", ".docx", ".doc", ".pptx"]

/-- Outcome of the validation section of `ParserServiceServicer.ParseFile`
(`src/grpc/server.py`): either the request is rejected with
`INVALID_ARGUMENT` before any parsing, or a parser is created and
parsing is attempted. -/
inductive ServerOutcome
  | invalidArgument
  | parseAttempted (kind : ParserKind)
deriving DecidableEq

/-- Embeds steps 1-5 of `ParseFile` up to the point where
`parser.parse` is invoked: empty `file_content`, empty `file_name`, an
empty extension, and a `ValueError` from the factory each yield
`INVALID_ARGUMENT` with no parsing attempted. -/
def parseFileValidate (fileContent : List Nat) (fileName : String) : ServerOutcome :=
  if fileContent = [] then .invalidArgument
  else if fileName = "" then .invalidArgument
  else
    let fileFormat := pySuffix fileName
    if fileFormat = "" then .invalidArgument
    else
      match createParser fileFormat with
      | none => .invalidArgument
      | some k => .parseAttempted k

-- ---------------------------------------------------------------------
-- Table normalizer (src/pdf_parser.py `_table_to_markdown_worker`)
-- ---------------------------------------------------------------------

/-- Python `str.replace("\n", "<br>")`: every newline character becomes
the four characters of `<br>`. -/
def replaceNewlines (s : String) : String :=
  ⟨s.data.flatMap fun c => if c = '\n' then "<br>".data else [c]⟩

/-- The cell cleaner of `_table_to_markdown_worker`: `None` becomes the
empty string, any other cell has its newlines replaced by `<br>` and is
then stripped. -/
def cleanCell : Option String → String
  | none => ""
  | some s => pyStrip (replaceNewlines s)

/-- One emitted Markdown table line: `"| " + " | ".join(cells) + " |"`. -/
def rowLine (cells : List String) : String :=
  "| " ++ joinSep " | " cells ++ " |"

/-- The per-row body of the loop in `_table_to_markdown_worker`: a row
contributes nothing when it is empty, has a cell count different from
the header, or is entirely blank after cleaning; otherwise it
contributes its Markdown line followed by a newline. -/
def emitRow (n : Nat) (row : List (Option String)) : String :=
  if row = [] then ""
  else
    let cells := row.map cleanCell
    if cells.length ≠ n then ""
    else if cells.all (· = "") then ""
    else rowLine cells ++ "\n"

/-- Embeds `_table_to_markdown_worker` from `src/pdf_parser.py`: empty
table or empty first row gives `""`; an all-blank header gives `""`;
otherwise the header line and separator line are emitted followed by
the surviving data rows. -/
def table_to_markdown_worker (tableData : List (List (Option String))) : String :=
  match tableData with
  | [] => ""
  | row0 :: rest =>
    if row0 = [] then ""
    else
      let header := row0.map cleanCell
      if header = [] ∨ header.all (· = "") then ""
      else
        let n := header.length
        rowLine header ++ "\n" ++ rowLine (List.replicate n "---") ++ "\n" ++
          strConcat (rest.map (emitRow n))

/-- The Markdown lines of the surviving data rows (without their
trailing newlines). -/
def dataLines (n : Nat) : List (List (Option String)) → List String
  | [] => []
  | row :: rest =>
    if row = [] then dataLines n rest
    else
      let cells := row.map cleanCell
      if cells.length ≠ n then dataLines n rest
      else if cells.all (· = "") then dataLines n rest
      else rowLine cells :: dataLines n rest

/-- The 2x2 table of scenario S2. -/
def sampleTable : List (List String) := [["A", "B"], ["1", "2"]]

-- ---------------------------------------------------------------------
-- DOCX document model (src/docx_parser.py)
-- ---------------------------------------------------------------------

/-- One top-level element of the python-docx document body as the
library delivers it: a paragraph with its text and the raw bytes of the
embedded images found by the XML scan of
`_extract_images_from_paragraph`, or a table of raw cell texts. -/
inductive DocxBlock
  | para (text : String) (images : List (List Nat))
  | table (rows : List (List String))
deriving DecidableEq

/-- `doc.paragraphs`: the paragraphs of the body in document order. -/
def docxParagraphs (body : List DocxBlock) : List (String × List (List Nat)) :=
  body.filterMap fun b =>
    match b with
    | .para t imgs => some (t, imgs)
    | .table _ => none

/-- `doc.tables`: the tables of the body in document order. -/
def docxTables (body : List DocxBlock) : List (List (List String)) :=
  body.filterMap fun b =>
    match b with
    | .para _ _ => none
    | .table rows => some rows

/-- The cell cleaner of `DocxParser._table_to_markdown`: an empty cell
text stays empty, otherwise its newlines become `<br>` and the result
is stripped. -/
def cleanDocxCell (s : String) : String :=
  if s = "" then "" else pyStrip (replaceNewlines s)

/-- The per-row loop body of `DocxParser._table_to_markdown`, applied
to an already cleaned row. -/
def emitDocxRow (n : Nat) (row : List String) : String :=
  if row = [] then ""
  else if row.length ≠ n then ""
  else if row.all (· = "") then ""
  else rowLine row ++ "\n"

/-- Embeds `DocxParser._table_to_markdown` (src/docx_parser.py):
identical shape to the PDF worker, over raw cell texts. -/
def docx_table_to_markdown (tableRows : List (List String)) : String :=
  match tableRows with
  | [] => ""
  | r0 :: rest =>
    let header := r0.map cleanDocxCell
    if header = [] ∨ header.all (· = "") then ""
    else
      let n := header.length
      rowLine header ++ "\n" ++ rowLine (List.replicate n "---") ++ "\n" ++
        strConcat (rest.map fun r => emitDocxRow n (r.map cleanDocxCell))

/-- Embeds `DocxParser._parse_simple` (src/docx_parser.py): the texts
of the non-empty paragraphs in paragraph order, then every table row
whose " | "-joined stripped-cell text is not blank, all joined by
"\n\n".  Images are never consulted. -/
def parse_simple (body : List DocxBlock) : String :=
  joinSep "\n\n"
    (((docxParagraphs body).filterMap fun p =>
        if pyStrip p.1 = "" then none else some (pyStrip p.1)) ++
      ((docxTables body).flatMap fun rows =>
        rows.filterMap fun row =>
          if pyStrip (joinSep " | " (row.map pyStrip)) = "" then none
          else some (joinSep " | " (row.map pyStrip))))

/-- Reference rendering for the C10 claim, gathered by one walk over
the body: non-empty stripped paragraph texts in body order. -/
def simpleParaTexts : List DocxBlock → List String
  | [] => []
  | .para t _ :: rest =>
    if pyStrip t = "" then simpleParaTexts rest
    else pyStrip t :: simpleParaTexts rest
  | .table _ :: rest => simpleParaTexts rest

/-- Reference rendering for the C10 claim: the surviving " | "-joined
row texts of the tables in body order. -/
def simpleRowTexts : List DocxBlock → List String
  | [] => []
  | .para _ _ :: rest => simpleRowTexts rest
  | .table rows :: rest =>
    (rows.filterMap fun row =>
      if pyStrip (joinSep " | " (row.map pyStrip)) = "" then none
      else some (joinSep " | " (row.map pyStrip))) ++ simpleRowTexts rest

/-- The literal reading of the C10 claim: every table row rendered,
with no blank-row skipping. -/
def allRowTexts : List DocxBlock → List String
  | [] => []
  | .para _ _ :: rest => allRowTexts rest
  | .table rows :: rest =>
    rows.map (fun row => joinSep " | " (row.map pyStrip)) ++ allRowTexts rest

/-- Remove the embedded images from every paragraph of a body. -/
def eraseImages (body : List DocxBlock) : List DocxBlock :=
  body.map fun b =>
    match b with
    | .para t _ => .para t []
    | .table rows => .table rows

-- ---------------------------------------------------------------------
-- DOCX advanced parse and the gRPC response (C1)
-- ---------------------------------------------------------------------

/-- The images of one paragraph that survive
`_extract_images_from_paragraph`: at least 5000 raw bytes and not
classified as background by the size-only call
`is_background_image(image_data)` (no dimensions supplied). -/
def keptImages (decodeDims : List Nat → Option (Nat × Nat))
    (imgs : List (List Nat)) : List (List Nat) :=
  imgs.filter fun b =>
    5000 ≤ b.length && !(is_background_image decodeDims b none none)

/-- One element of the `content_sequence` built by `_parse_advanced`:
text, a Markdown table, or an image tagged with its 1-based number. -/
inductive SeqItem
  | text (s : String)
  | table (md : String)
  | image (data : List Nat) (num : Nat)
deriving DecidableEq

/-- Step 1 of `_parse_advanced`: walk the body in document order,
emitting the stripped non-empty paragraph text, then that paragraph's
surviving images (numbered by the running image counter), and each
non-empty table rendering. -/
def buildSeq (decodeDims : List Nat → Option (Nat × Nat)) :
    List DocxBlock → Nat → List SeqItem
  | [], _ => []
  | .para t imgs :: rest, cnt =>
    let kept := keptImages decodeDims imgs
    (if pyStrip t = "" then [] else [SeqItem.text (pyStrip t)]) ++
      kept.enum.map (fun p => SeqItem.image p.2 (cnt + p.1 + 1)) ++
      buildSeq decodeDims rest (cnt + kept.length)
  | .table rows :: rest, cnt =>
    (if docx_table_to_markdown rows = "" then []
     else [SeqItem.table (docx_table_to_markdown rows)]) ++
      buildSeq decodeDims rest cnt

/-- Step 4 of `_parse_advanced`: text and table items verbatim, image
items replaced by their OCR block exactly when the OCR results map
holds (non-blank) text for their number. -/
def renderSeq (ocrMap : Nat → Option String) (seq : List SeqItem) : List String :=
  seq.filterMap fun it =>
    match it with
    | .text s => some s
    | .table md => some md
    | .image _ num =>
      (ocrMap num).map fun t => "[图像 " ++ toString num ++ " OCR 内容]:\n" ++ t

/-- Embeds `DocxParser._parse_advanced` with the OCR results map (image
number to recognized non-blank text) as an oracle. -/
def parse_advanced (decodeDims : List Nat → Option (Nat × Nat))
    (ocrMap : Nat → Option String) (body : List DocxBlock) : String :=
  joinSep "\n\n" (renderSeq ocrMap (buildSeq decodeDims body 0))

/-- The counters of `ParseMetadata` (src/models.py) that the server
copies into the response. -/
structure MetadataCounters where
  pageCount : Nat
  imageCount : Nat
  tableCount : Nat
  ocrCount : Nat
  captionCount : Nat
deriving DecidableEq

/-- The dynamic result of `parser.parse(...)`: `MarkdownParser` and
`PptxParser` return a `ParseResult` (content plus metadata) while
`PDFParser.parse` and `DocxParser.parse` return a bare string. -/
inductive ParsedValue
  | plain (s : String)
  | structured (content : String) (md : MetadataCounters)
deriving DecidableEq

/-- The response `ParseFile` produces after `parser.parse` returns. -/
inductive GrpcResponse
  | success (content : String) (md : MetadataCounters)
  | internalError
deriving DecidableEq

/-- Embeds steps 6 of `ParseFile` (src/grpc/server.py): the server
reads `result.metadata` and `result.content` to build a successful
response.  On a bare-string result the attribute access
`result.metadata` raises `AttributeError`, which the enclosing
`except Exception` turns into an INTERNAL error response. -/
def buildParseResponse : ParsedValue → GrpcResponse
  | .structured c m => .success c m
  | .plain _ => .internalError

/-- `DocxParser.parse` returns the bare string of `_parse_advanced`
(its annotation is `-> str`), not a `ParseResult`. -/
def docxParseValue (decodeDims : List Nat → Option (Nat × Nat))
    (ocrMap : Nat → Option String) (body : List DocxBlock) : ParsedValue :=
  .plain (parse_advanced decodeDims ocrMap body)

/-- The S2 document: one paragraph `Intro.` followed by the 2x2 table,
with no images. -/
def s2Body : List DocxBlock := [.para "Intro." [], .table sampleTable]

/-- OCR oracle for a document without images. -/
def noOcr : Nat → Option String := fun _ => none

/-- Body refuting the literal reading of C10: a table whose single row
has one blank cell, followed by a paragraph. -/
def c10Body : List DocxBlock := [.table [[""]], .para "A" []]

/-- Dimension-decoding oracle that always fails (never consulted for
documents without images). -/
def noDecode : List Nat → Option (Nat × Nat) := fun _ => none

-- ---------------------------------------------------------------------
-- PDF page assembly (src/pdf_parser.py, src/page_processor.py)
-- ---------------------------------------------------------------------

/-- The three fragment tags appearing in a page's `content_parts`. -/
inductive ContentType
  | text
  | table
  | imagePlaceholder
deriving DecidableEq

/-- `PageData` (src/page_processor.py): page number, ordered
`(type, content, order index)` fragments, and the paths of the saved
page images. -/
structure PageData where
  pageNum : Nat
  contentParts : List (ContentType × String × Nat)
  imagePaths : List String
deriving DecidableEq

/-- The tail of `PagePoolManager.process_pages_parallel`:
`results.sort(key=lambda x: x.page_num)` — a stable sort by page
number, modelled by insertion sort. -/
def sortPages (results : List PageData) : List PageData :=
  List.insertionSort (fun a b => a.pageNum ≤ b.pageNum) results

/-- `sorted(page_data.content_parts, key=lambda x: x[2])` — a stable
sort of a page's fragments by order index. -/
def sortFrags (parts : List (ContentType × String × Nat)) :
    List (ContentType × String × Nat) :=
  List.insertionSort (fun a b => a.2.2 ≤ b.2.2) parts

/-- Python string comparison `a <= b`: lexicographic on code points. -/
def charListLe : List Char → List Char → Bool
  | [], _ => true
  | _ :: _, [] => false
  | c :: cs, d :: ds =>
    if c.toNat < d.toNat then true
    else if d.toNat < c.toNat then false
    else charListLe cs ds

/-- Python `a <= b` on strings. -/
def pyStrLe (a b : String) : Bool := charListLe a.data b.data

/-- The per-page image numbering of step 5 of `PDFParser.parse`:
`len([p for p in page_data.image_paths if p <= image_path]) + 1`.
The comparison `p <= image_path` also counts `image_path` itself, so
for lexicographically increasing paths the first image of a page gets
number 2. -/
def imageNumOf (pd : PageData) (path : String) : Nat :=
  (pd.imagePaths.filter fun p => pyStrLe p path).length + 1

/-- `image_to_page_map` of step 5: a CPython dict as an association
list built by walking the pages in order. -/
def imageToPageMap (results : List PageData) : List (String × Nat × Nat) :=
  results.flatMap fun pd =>
    pd.imagePaths.map fun p => (p, pd.pageNum, imageNumOf pd p)

/-- CPython dict lookup over the association list: later insertions
shadow earlier ones, so the last binding of the key wins. -/
def dictLookup (m : List (String × Nat × Nat)) (k : String) : Option (Nat × Nat) :=
  (m.reverse.find? fun e => e.1 == k).map (·.2)

/-- Step 7 rendering of one fragment: text and table fragments are
emitted verbatim; an image placeholder is emitted as its OCR block
when the OCR results map holds text for its path (a missing
image-to-page-map key would raise `KeyError`, modelled by the error
case), and is dropped otherwise. -/
def renderFrag (ocrMap : String → Option String)
    (imgMap : List (String × Nat × Nat)) :
    ContentType × String × Nat → Except Unit (Option String)
  | (.text, content, _) => .ok (some content)
  | (.table, content, _) => .ok (some content)
  | (.imagePlaceholder, path, _) =>
    match ocrMap path with
    | some t =>
      match dictLookup imgMap path with
      | some (_, num) =>
        .ok (some ("[图像 " ++ toString num ++ " OCR 内容]:\n" ++ t))
      | none => .error ()
    | none => .ok none

/-- Step 7 for one page with the fragments taken in the given order:
render each fragment and join the survivors with "\n\n" (an empty
fragment list gives the empty page string). -/
def renderPageFrags (ocrMap : String → Option String)
    (imgMap : List (String × Nat × Nat))
    (frags : List (ContentType × String × Nat)) : Except Unit String := do
  let parts ← frags.filterMapM (renderFrag ocrMap imgMap)
  pure (joinSep "\n\n" parts)

/-- Step 7 for one page as written: fragments sorted by order index. -/
def renderPage (ocrMap : String → Option String)
    (imgMap : List (String × Nat × Nat)) (pd : PageData) : Except Unit String :=
  renderPageFrags ocrMap imgMap (sortFrags pd.contentParts)

/-- Steps 5-8 of `PDFParser.parse` over an already ordered page list:
build the image-to-page map, render every page, join with the
page-break separator. -/
def pdfAssembleSorted (ocrMap : String → Option String)
    (results : List PageData) : Except Unit String := do
  let pages ← results.mapM (renderPage ocrMap (imageToPageMap results))
  pure (joinSep "\n\n--- Page Break ---\n\n" pages)

/-- Steps 5-8 of `PDFParser.parse` applied to the collected page
results in whatever completion order the pool delivered them: the
pool's tail sorts them by page number first. -/
def pdfAssemble (ocrMap : String → Option String)
    (collected : List PageData) : Except Unit String :=
  pdfAssembleSorted ocrMap (sortPages collected)

/-- Page 0 of scenario S4: the text `Hello.`. -/
def s4Page0 : PageData := ⟨0, [(.text, "Hello.", 0)], []⟩

/-- Page 1 of scenario S4: one surviving image. -/
def s4Page1 : PageData :=
  ⟨1, [(.imagePlaceholder, "/tmp/pdf/page_1_image_0.png", 0)],
    ["/tmp/pdf/page_1_image_0.png"]⟩

/-- The S4 OCR results map: the single image resolves to `STOP`. -/
def s4Ocr : String → Option String :=
  fun p => if p = "/tmp/pdf/page_1_image_0.png" then some "STOP" else none

/-- An OCR results map with no entries (pages without surviving image
text). -/
def noPathOcr : String → Option String := fun _ => none

/-- Two tiny pages used to witness the assembly-order theorem. -/
def wPage0 : PageData := ⟨0, [(.text, "b", 1), (.text, "a", 0)], []⟩

/-- Second witness page. -/
def wPage1 : PageData := ⟨1, [(.text, "c", 0)], []⟩

-- ---------------------------------------------------------------------
-- Narrative optimizer: keyword separators (src/narrative_optimizer.py)
-- ---------------------------------------------------------------------

/-- The CJK character class `[一-龥]` of the keyword regexes. -/
def isCJK (c : Char) : Bool := 0x4e00 ≤ c.toNat && c.toNat ≤ 0x9fa5

/-- The ASCII letter class `[a-zA-Z]`. -/
def isAsciiLetter (c : Char) : Bool :=
  (65 ≤ c.toNat && c.toNat ≤ 90) || (97 ≤ c.toNat && c.toNat ≤ 122)

/-- Greedy parse of the `(?:/[一-龥]{2,})+` tail of the CJK
keyword pattern: consume as many slash-plus-CJK-run segments (runs of
at least two CJK characters) as possible, returning the consumed
characters and the rest.  The fuel argument dominates the input
length. -/
def zhSegs : Nat → List Char → List Char × List Char
  | 0, l => ([], l)
  | fuel + 1, l =>
    match l with
    | '/' :: r =>
      let run := r.takeWhile isCJK
      if 2 ≤ run.length then
        let p := zhSegs fuel (r.drop run.length)
        ('/' :: (run ++ p.1), p.2)
      else ([], l)
    | _ => ([], l)

/-- Try the CJK keyword pattern
`[一-龥]{2,}(?:/[一-龥]{2,})+` at the head of `l`; on
success return the matched characters and the rest. -/
def zhTry (l : List Char) : Option (List Char × List Char) :=
  let run := l.takeWhile isCJK
  if 2 ≤ run.length then
    let p := zhSegs l.length (l.drop run.length)
    if p.1 = [] then none else some (run ++ p.1, p.2)
  else none

/-- The `re.sub` scan for the CJK keyword pattern with the replacement
of `replace_zh`: the slashes of the match become `、` and `等内容` is
appended; positions without a match are copied and the scan advances
one character. -/
def zhScan : Nat → List Char → List Char
  | 0, l => l
  | _ + 1, [] => []
  | fuel + 1, c :: t =>
    match zhTry (c :: t) with
    | some (m, rest) =>
      m.map (fun ch => if ch = '/' then '、' else ch) ++ "等内容".data ++
        zhScan fuel rest
    | none => c :: zhScan fuel t

/-- The CJK substitution of `_optimize_keyword_separators`. -/
def optimizeKeywordZh (s : String) : String := ⟨zhScan s.data.length s.data⟩

/-- Greedy parse of the word-group extension `(?:\s+[a-zA-Z]+)*`:
repeatedly consume non-empty whitespace followed by letters. -/
def enExt : Nat → List Char → List Char × List Char
  | 0, l => ([], l)
  | fuel + 1, l =>
    let ws := l.takeWhile pyIsSpace
    let r := l.drop ws.length
    let w := r.takeWhile isAsciiLetter
    if 1 ≤ ws.length ∧ 1 ≤ w.length then
      let p := enExt fuel (r.drop w.length)
      (ws ++ w ++ p.1, p.2)
    else ([], l)

/-- Parse one word group `[a-zA-Z]+(?:\s+[a-zA-Z]+)*`, returning its
raw characters (internal whitespace preserved) and the rest. -/
def enGroup (l : List Char) : Option (List Char × List Char) :=
  let w := l.takeWhile isAsciiLetter
  if w = [] then none
  else
    let p := enExt l.length (l.drop w.length)
    some (w ++ p.1, p.2)

/-- Greedy parse of the separator chain: each step consumes optional
whitespace, a slash, optional whitespace and a word group; the raw
groups and the rest are returned. -/
def enSeps : Nat → List Char → List (List Char) × List Char
  | 0, l => ([], l)
  | fuel + 1, l =>
    let ws1 := l.takeWhile pyIsSpace
    match l.drop ws1.length with
    | '/' :: r2 =>
      let ws2 := r2.takeWhile pyIsSpace
      match enGroup (r2.drop ws2.length) with
      | some (g, rest) =>
        let p := enSeps fuel rest
        (g :: p.1, p.2)
      | none => ([], l)
    | _ => ([], l)

/-- Try the ASCII keyword pattern at the head of `l`: a word group
followed by at least one `\s*/\s*`-separated word group; on success
return the matched groups and the rest. -/
def enTry (l : List Char) : Option (List (List Char) × List Char) :=
  match enGroup l with
  | none => none
  | some (g1, rest) =>
    let p := enSeps l.length rest
    if p.1 = [] then none else some (g1 :: p.1, p.2)

/-- The `re.sub` scan for the ASCII keyword pattern with the
replacement of `replace_en`: every `\s*/\s*` of the match becomes
`, ` and ` 等内容` is appended. -/
def enScan : Nat → List Char → List Char
  | 0, l => l
  | _ + 1, [] => []
  | fuel + 1, c :: t =>
    match enTry (c :: t) with
    | some (gs, rest) =>
      (joinSep ", " (gs.map fun g => (⟨g⟩ : String))).data ++ " 等内容".data ++
        enScan fuel rest
    | none => c :: enScan fuel t

/-- The ASCII substitution of `_optimize_keyword_separators`. -/
def optimizeKeywordEn (s : String) : String := ⟨enScan s.data.length s.data⟩

/-- Embeds `_optimize_keyword_separators` (src/narrative_optimizer.py):
the CJK substitution followed by the ASCII substitution. -/
def optimize_keyword_separators (s : String) : String :=
  optimizeKeywordEn (optimizeKeywordZh s)

-- ---------------------------------------------------------------------
-- Narrative optimizer: remaining rules (src/narrative_optimizer.py)
-- ---------------------------------------------------------------------

/-- Generic `re.sub` scan: at every position try the pattern; on a
match emit the replacement and continue after the match, otherwise
copy one character.  Every pattern used below consumes at least one
character, and the fuel dominates the input length. -/
def reScan (tryM : List Char → Option (List Char × List Char)) :
    Nat → List Char → List Char
  | 0, l => l
  | _ + 1, [] => []
  | fuel + 1, c :: t =>
    match tryM (c :: t) with
    | some (repl, rest) => repl ++ reScan tryM fuel rest
    | none => c :: reScan tryM fuel t

/-- Case-insensitive test that `l` starts with the (lowercase) word
`w`, per the `re.IGNORECASE` flag restricted to ASCII. -/
def startsCI (w : List Char) (l : List Char) : Bool :=
  (l.take w.length).map asciiLowerChar == w

/-- Test that `l` starts with the literal characters `pre`. -/
def startsLit (pre : List Char) (l : List Char) : Bool :=
  l.take pre.length == pre

/-- The slide-separator replacement `## Slide \1`. -/
def slideRepl (ds : List Char) : List Char := "## Slide ".data ++ ds

/-- Pattern 1 of `_optimize_slide_separators`:
`@@@\s*Slide[_\s]+(\d+)\s*@@@`, case-insensitive. -/
def slideTry1 (l : List Char) : Option (List Char × List Char) :=
  match l with
  | '@' :: '@' :: '@' :: r =>
    let r1 := r.drop (r.takeWhile pyIsSpace).length
    if startsCI "slide".data r1 then
      let r2 := r1.drop 5
      let us := r2.takeWhile fun c => c = '_' || pyIsSpace c
      if us = [] then none
      else
        let ds := (r2.drop us.length).takeWhile Char.isDigit
        if ds = [] then none
        else
          let r3 := (r2.drop us.length).drop ds.length
          match r3.drop (r3.takeWhile pyIsSpace).length with
          | '@' :: '@' :: '@' :: rest => some (slideRepl ds, rest)
          | _ => none
    else none
  | _ => none

/-- Patterns 2 and 3 of `_optimize_slide_separators`:
`X{3,}\s*Slide\s+(\d+)\s*X{3,}` for `X` the given fence character,
case-insensitive. -/
def slideTryFence (fence : Char) (l : List Char) : Option (List Char × List Char) :=
  let run := l.takeWhile (· = fence)
  if run.length < 3 then none
  else
    let r1 := l.drop run.length
    let r2 := r1.drop (r1.takeWhile pyIsSpace).length
    if startsCI "slide".data r2 then
      let r3 := r2.drop 5
      let ws := r3.takeWhile pyIsSpace
      if ws = [] then none
      else
        let ds := (r3.drop ws.length).takeWhile Char.isDigit
        if ds = [] then none
        else
          let r4 := (r3.drop ws.length).drop ds.length
          let r5 := r4.drop (r4.takeWhile pyIsSpace).length
          let run2 := r5.takeWhile (· = fence)
          if run2.length < 3 then none
          else some (slideRepl ds, r5.drop run2.length)
    else none

/-- Pattern 4 of `_optimize_slide_separators`:
`[\[\(]\s*Slide\s+(\d+)\s*[\]\)]`, case-insensitive. -/
def slideTry4 (l : List Char) : Option (List Char × List Char) :=
  match l with
  | b :: r =>
    if b = '[' || b = '(' then
      let r1 := r.drop (r.takeWhile pyIsSpace).length
      if startsCI "slide".data r1 then
        let r2 := r1.drop 5
        let ws := r2.takeWhile pyIsSpace
        if ws = [] then none
        else
          let ds := (r2.drop ws.length).takeWhile Char.isDigit
          if ds = [] then none
          else
            let r3 := (r2.drop ws.length).drop ds.length
            match r3.drop (r3.takeWhile pyIsSpace).length with
            | c :: rest => if c = ']' || c = ')' then some (slideRepl ds, rest) else none
            | [] => none
      else none
    else none
  | [] => none

/-- Embeds `_optimize_slide_separators`: the four substitutions in
source order. -/
def optimize_slide_separators (s : String) : String :=
  let l1 := reScan slideTry1 s.data.length s.data
  let l2 := reScan (slideTryFence '=') l1.length l1
  let l3 := reScan (slideTryFence '-') l2.length l2
  ⟨reScan slideTry4 l3.length l3⟩

/-- Pattern 1 of `_optimize_image_placeholders`:
`\[图像\s+(\d+)\s+OCR\s+内容\]\s*[:：]` (case-sensitive). -/
def imgTry1 (l : List Char) : Option (List Char × List Char) :=
  match l with
  | '[' :: '图' :: '像' :: r =>
    let ws1 := r.takeWhile pyIsSpace
    if ws1 = [] then none
    else
      let ds := (r.drop ws1.length).takeWhile Char.isDigit
      if ds = [] then none
      else
        let r1 := (r.drop ws1.length).drop ds.length
        let ws2 := r1.takeWhile pyIsSpace
        if ws2 = [] then none
        else
          match r1.drop ws2.length with
          | 'O' :: 'C' :: 'R' :: r2 =>
            let ws3 := r2.takeWhile pyIsSpace
            if ws3 = [] then none
            else
              match r2.drop ws3.length with
              | '内' :: '容' :: ']' :: r3 =>
                match r3.drop (r3.takeWhile pyIsSpace).length with
                | ':' :: rest => some ("[图片 ".data ++ ds ++ " 内容]：".data, rest)
                | '：' :: rest => some ("[图片 ".data ++ ds ++ " 内容]：".data, rest)
                | _ => none
              | _ => none
          | _ => none
  | _ => none

/-- Pattern 2 of `_optimize_image_placeholders`:
`Image\s+(\d+)\s+Text\s*:`, case-insensitive. -/
def imgTry2 (l : List Char) : Option (List Char × List Char) :=
  if startsCI "image".data l then
    let r := l.drop 5
    let ws1 := r.takeWhile pyIsSpace
    if ws1 = [] then none
    else
      let ds := (r.drop ws1.length).takeWhile Char.isDigit
      if ds = [] then none
      else
        let r1 := (r.drop ws1.length).drop ds.length
        let ws2 := r1.takeWhile pyIsSpace
        if ws2 = [] then none
        else
          let r2 := r1.drop ws2.length
          if startsCI "text".data r2 then
            let r3 := r2.drop 4
            match r3.drop (r3.takeWhile pyIsSpace).length with
            | ':' :: rest => some ("[图片 ".data ++ ds ++ " 内容]：".data, rest)
            | _ => none
          else none
  else none

/-- Pattern 3 of `_optimize_image_placeholders`:
`\[Image\s+(\d+)\]\s*[:：]?`, case-insensitive. -/
def imgTry3 (l : List Char) : Option (List Char × List Char) :=
  match l with
  | '[' :: r =>
    if startsCI "image".data r then
      let r1 := r.drop 5
      let ws1 := r1.takeWhile pyIsSpace
      if ws1 = [] then none
      else
        let ds := (r1.drop ws1.length).takeWhile Char.isDigit
        if ds = [] then none
        else
          match (r1.drop ws1.length).drop ds.length with
          | ']' :: r2 =>
            let repl := "[图片 ".data ++ ds ++ "]：".data
            match r2.drop (r2.takeWhile pyIsSpace).length with
            | ':' :: rest => some (repl, rest)
            | '：' :: rest => some (repl, rest)
            | rest => some (repl, rest)
          | _ => none
    else none
  | _ => none

/-- Embeds `_optimize_image_placeholders`: the three substitutions in
source order. -/
def optimize_image_placeholders (s : String) : String :=
  let l1 := reScan imgTry1 s.data.length s.data
  let l2 := reScan imgTry2 l1.length l1
  ⟨reScan imgTry3 l2.length l2⟩

/-- Substring containment (Python `pat in stripped`). -/
def containsSeq (pat : List Char) : List Char → Bool
  | [] => pat.isEmpty
  | c :: t => (c :: t).take pat.length == pat || containsSeq pat t

/-- Join lines back with `'\n'.join`-like semantics of
`'\n'.join(lines)` after `text.split('\n')`. -/
def joinNL : List (List Char) → List Char
  | [] => []
  | [x] => x
  | x :: y :: t => x ++ '\n' :: joinNL (y :: t)

/-- The `formula_indicators` list of the formula rule. -/
def formulaIndicators : List Char :=
  ['=', '∑', '∏', '∫',
   'α', 'β', 'γ', 'δ', 'ε', 'ζ', 'η', 'θ', 'ι', 'κ', 'λ', 'μ',
   'ν', 'ξ', 'ο', 'π', 'ρ', 'σ', 'τ', 'υ', 'φ', 'χ', 'ψ', 'ω',
   '±', '≈', '≠', '≤', '≥']

/-- The inner confirmation set `'αβγδεθλμσπ∑∏∫'`. -/
def strongFormulaChars : List Char := "αβγδεθλμσπ∑∏∫".data

/-- The per-line body of the formula rule ( _optimize_formula_notation in the source). -/
def formulaLine (line : List Char) : List Char :=
  let stripped := pyStripList line
  if startsLit "公式：".data stripped then line
  else if startsLit ['#'] stripped || startsLit ['-'] stripped ||
      startsLit ['*'] stripped then line
  else
    let hasFormula := formulaIndicators.any (fun ind => stripped.contains ind) &&
      (stripped.contains '=' || strongFormulaChars.any (fun c => stripped.contains c))
    if hasFormula && 3 < stripped.length then
      List.replicate (line.length - (line.dropWhile pyIsSpace).length) ' ' ++
        "公式：".data ++ stripped
    else line

/-- Embeds the formula rule _optimize_formula_notation : split on
newlines, rewrite each line, rejoin. -/
def optimizeFormulaPass (s : String) : String :=
  ⟨joinNL ((splitCharAux '\n' s.data).map formulaLine)⟩

/-- The CJK terminal punctuation set of `_optimize_punctuation`. -/
def cjkTerminals : List Char := "。！？；，、：）】」".data

/-- The ASCII terminal punctuation set of `_optimize_punctuation`. -/
def asciiTerminals : List Char := ".!?;:)]\x7d".data

/-- The per-line body of `_optimize_punctuation`. -/
def punctLine (line : List Char) : List Char :=
  let stripped := pyStripList line
  if stripped = [] || startsLit ['#'] stripped || startsLit ['-'] stripped ||
      startsLit ['*'] stripped then line
  else
    match stripped.getLast? with
    | none => line
    | some last =>
      if cjkTerminals.contains last then line
      else if asciiTerminals.contains last then line
      else if 2 ≤ stripped.count '|' then line
      else if stripped.contains '=' || containsSeq "公式：".data stripped then line
      else if stripped.any isCJK then
        if 5 < stripped.length then
          List.replicate (line.length - (line.dropWhile pyIsSpace).length) ' ' ++
            stripped ++ ['。']
        else line
      else
        if 10 < stripped.length then
          List.replicate (line.length - (line.dropWhile pyIsSpace).length) ' ' ++
            stripped ++ ['.']
        else line

/-- Embeds `_optimize_punctuation`: split on newlines, rewrite each
line, rejoin. -/
def optimize_punctuation (s : String) : String :=
  ⟨joinNL ((splitCharAux '\n' s.data).map punctLine)⟩

/-- Embeds `NarrativeOptimizer.optimize`: blank input is returned
untouched, otherwise the five rules run in source order. -/
def optimize (s : String) : String :=
  if s = "" ∨ pyStrip s = "" then s
  else
    optimize_punctuation (optimize_image_placeholders (optimizeFormulaPass
      (optimize_slide_separators (optimize_keyword_separators s))))

-- ======================================================================
-- THEOREMS
-- ======================================================================

-- ---------------------------------------------------------------------
-- Helper lemmas
-- ---------------------------------------------------------------------

theorem find?_key_isSome (t : List (String × ParserKind)) (x : String) :
    (t.find? fun p => p.1 == x).isSome = true ↔ x ∈ t.map (·.1) := by
  induction t with
  | nil => simp
  | cons a t ih =>
    by_cases h : a.1 = x
    · rw [List.find?_cons_of_pos _ (by simp [h])]
      simp [h]
    · rw [List.find?_cons_of_neg _ (by simp [h]), List.map_cons, List.mem_cons]
      rw [ih]
      constructor
      · exact Or.inr
      · rintro (rfl | hm)
        · exact absurd rfl h
        · exact hm

theorem createParser_isSome_iff (e : String) :
    (createParser e).isSome = true ↔ asciiLower e ∈ recognizedExtensions := by
  have h := find?_key_isSome parserTable (asciiLower e)
  have hm : parserTable.map (·.1) = recognizedExtensions := rfl
  rw [hm] at h
  unfold createParser
  rw [← h]
  cases hf : parserTable.find? fun p => p.1 == asciiLower e <;> simp [hf]

theorem asciiLower_empty : asciiLower "" = "" := rfl

-- ---------------------------------------------------------------------
-- C6
-- ---------------------------------------------------------------------

/-- C6: for image bytes with known dimensions, `is_background_image`
returns `true` whenever the serialized size exceeds 300 KiB, and
whenever both dimensions exceed the 1600 x 900 threshold. -/
theorem background_filter_monotone (decodeDims : List Nat → Option (Nat × Nat))
    (B : List Nat) (w h : Nat) :
    (307200 < B.length →
      is_background_image decodeDims B (some w) (some h) = true) ∧
    (1600 < w → 900 < h →
      is_background_image decodeDims B (some w) (some h) = true) := by
  constructor
  · intro hB
    unfold is_background_image
    rw [if_pos (by omega)]
  · intro hw hh
    unfold is_background_image
    by_cases hB : 300 * 1024 < B.length
    · rw [if_pos hB]
    · rw [if_neg hB]
      simp [hw, hh]

/-- Witness for `background_filter_monotone` at a 307201-byte image of
dimensions 1920 x 1080. -/
theorem background_filter_monotone_witness :
    307200 < (List.replicate 307201 (0 : Nat)).length ∧
    is_background_image (fun _ => none) (List.replicate 307201 (0 : Nat))
      (some 1920) (some 1080) = true :=
  ⟨by rw [List.length_replicate]; norm_num,
   (background_filter_monotone (fun _ => none)
      (List.replicate 307201 (0 : Nat)) 1920 1080).2
      (by norm_num) (by norm_num)⟩

-- ---------------------------------------------------------------------
-- C9
-- ---------------------------------------------------------------------

/-- C9: `ocr_worker` is a total function into `String`; whenever the
engine accessor, the preprocessing step, or the recognition step raises,
the worker returns the empty string instead of propagating the error. -/
theorem ocr_worker_swallows_errors (rt : OcrRuntime) (b : List Nat) :
    (∀ msg, rt.getEngine = .error msg → ocr_worker rt b = "") ∧
    (∀ e msg, rt.getEngine = .ok e → rt.preprocessImage e b = .error msg →
      ocr_worker rt b = "") ∧
    (∀ e arr msg, rt.getEngine = .ok e → rt.preprocessImage e b = .ok arr →
      rt.recognize e arr = .error msg → ocr_worker rt b = "") := by
  refine ⟨fun msg h => ?_, fun e msg h1 h2 => ?_, fun e arr msg h1 h2 h3 => ?_⟩
  · simp [ocr_worker, h, Bind.bind, Except.bind]
  · simp [ocr_worker, h1, h2, Bind.bind, Except.bind]
  · simp [ocr_worker, h1, h2, h3, Bind.bind, Except.bind]

/-- Witness for `ocr_worker_swallows_errors`: a runtime whose engine
initialization raises makes the worker return the empty string. -/
theorem ocr_worker_swallows_errors_witness :
    failingRuntime.getEngine = .error "init failed" ∧
    ocr_worker failingRuntime [] = "" :=
  ⟨rfl, (ocr_worker_swallows_errors failingRuntime []).1 "init failed" rfl⟩

-- ---------------------------------------------------------------------
-- C8
-- ---------------------------------------------------------------------

/-- C8: `ParseFile` rejects a request with `INVALID_ARGUMENT` and
attempts no parsing exactly when the content is empty, the name is
empty, or the lowercased extension of the file name is unrecognized;
every request passing validation gets a parser and a parse attempt. -/
theorem parse_file_validation (fileContent : List Nat) (fileName : String) :
    (parseFileValidate fileContent fileName = .invalidArgument ↔
      fileContent = [] ∨ fileName = "" ∨
        asciiLower (pySuffix fileName) ∉ recognizedExtensions) ∧
    (parseFileValidate fileContent fileName ≠ .invalidArgument →
      ∃ k, parseFileValidate fileContent fileName = .parseAttempted k ∧
        createParser (pySuffix fileName) = some k) := by
  constructor
  · unfold parseFileValidate
    by_cases hc : fileContent = []
    · simp [hc]
    · rw [if_neg hc]
      by_cases hn : fileName = ""
      · simp [hn]
      · rw [if_neg hn]
        by_cases hf : pySuffix fileName = ""
        · rw [if_pos hf, hf]
          simp [hc, hn, asciiLower_empty, recognizedExtensions]
        · rw [if_neg hf]
          rcases hcp : createParser (pySuffix fileName) with _ | k
          · have := (createParser_isSome_iff (pySuffix fileName)).not
            simp [hcp] at this
            simp [hc, hn, this]
          · have := (createParser_isSome_iff (pySuffix fileName)).mp (by simp [hcp])
            simp [hc, hn, this]
  · intro hne
    unfold parseFileValidate at hne ⊢
    by_cases hc : fileContent = []
    · simp [hc] at hne
    · rw [if_neg hc] at hne ⊢
      by_cases hn : fileName = ""
      · simp [hn] at hne
      · rw [if_neg hn] at hne ⊢
        by_cases hf : pySuffix fileName = ""
        · simp [hf] at hne
        · rw [if_neg hf] at hne ⊢
          rcases hcp : createParser (pySuffix fileName) with _ | k
          · simp [hcp] at hne
          · exact ⟨k, by simp [hcp], rfl⟩

/-- Witness for `parse_file_validation`: an empty body is rejected, and
a well-formed PDF request reaches a created parser. -/
theorem parse_file_validation_witness :
    parseFileValidate [] "a.pdf" = .invalidArgument ∧
    ∃ k, parseFileValidate [1] "report.PDF" = .parseAttempted k ∧
      createParser (pySuffix "report.PDF") = some k :=
  ⟨(parse_file_validation [] "a.pdf").1.mpr (Or.inl rfl),
   (parse_file_validation [1] "report.PDF").2 (by decide)⟩

-- ---------------------------------------------------------------------
-- C3: supporting lemmas
-- ---------------------------------------------------------------------

theorem pyStripList_subset (l : List Char) : pyStripList l ⊆ l := by
  intro a ha
  unfold pyStripList at ha
  rw [List.mem_reverse] at ha
  have h1 : a ∈ (l.dropWhile pyIsSpace).reverse :=
    (List.dropWhile_sublist pyIsSpace).subset ha
  rw [List.mem_reverse] at h1
  exact (List.dropWhile_sublist pyIsSpace).subset h1

theorem mem_replaceNewlines {c : Char} {s : String}
    (h : c ∈ (replaceNewlines s).data) :
    c ∈ s.data ∨ c ∈ ['<', 'b', 'r', '>'] := by
  have h' : c ∈ s.data.flatMap (fun x => if x = '\n' then "<br>".data else [x]) := h
  rw [List.mem_flatMap] at h'
  obtain ⟨a, ha, hc⟩ := h'
  by_cases han : a = '\n'
  · rw [if_pos han] at hc
    exact Or.inr hc
  · rw [if_neg han] at hc
    rw [List.mem_singleton] at hc
    exact Or.inl (hc ▸ ha)

theorem replaceNewlines_no_newline (s : String) : '\n' ∉ (replaceNewlines s).data := by
  intro h
  have h' : '\n' ∈ s.data.flatMap (fun x => if x = '\n' then "<br>".data else [x]) := h
  rw [List.mem_flatMap] at h'
  obtain ⟨a, _, hc⟩ := h'
  by_cases han : a = '\n'
  · rw [if_pos han] at hc
    exact absurd hc (by decide)
  · rw [if_neg han] at hc
    rw [List.mem_singleton] at hc
    exact han hc.symm

theorem cleanCell_no_newline (oc : Option String) : '\n' ∉ (cleanCell oc).data := by
  cases oc with
  | none => simp [cleanCell]
  | some s =>
    intro h
    exact replaceNewlines_no_newline s (pyStripList_subset _ h)

theorem cleanCell_some_no_pipe {s : String} (h : '|' ∉ s.data) :
    '|' ∉ (cleanCell (some s)).data := by
  intro hc
  have h1 : '|' ∈ (replaceNewlines s).data := pyStripList_subset _ hc
  rcases mem_replaceNewlines h1 with h2 | h2
  · exact h h2
  · exact absurd h2 (by decide)

theorem countChar_append (c : Char) (a b : String) :
    countChar c (a ++ b) = countChar c a + countChar c b := by
  unfold countChar
  rw [String.data_append, List.count_append]

theorem countChar_eq_zero {c : Char} {s : String} (h : c ∉ s.data) :
    countChar c s = 0 :=
  List.count_eq_zero.mpr h

theorem countChar_joinSep_pipe (cells : List String)
    (h : ∀ x ∈ cells, '|' ∉ x.data) :
    countChar '|' (joinSep " | " cells) = cells.length - 1 := by
  induction cells with
  | nil => rfl
  | cons x t ih =>
    cases t with
    | nil =>
      have hx : countChar '|' x = 0 := countChar_eq_zero (h x (by simp))
      show countChar '|' x = 1 - 1
      rw [hx]
    | cons y t2 =>
      have hrw : joinSep " | " (x :: y :: t2) = x ++ " | " ++ joinSep " | " (y :: t2) := rfl
      rw [hrw, countChar_append, countChar_append]
      have hx : countChar '|' x = 0 := countChar_eq_zero (h x (by simp))
      have hsep : countChar '|' " | " = 1 := rfl
      have iht := ih (fun z hz => h z (by simp [hz]))
      rw [hx, hsep, iht]
      simp only [List.length_cons]
      omega

theorem countChar_rowLine (cells : List String) (hne : cells ≠ [])
    (h : ∀ x ∈ cells, '|' ∉ x.data) :
    countChar '|' (rowLine cells) = cells.length + 1 := by
  unfold rowLine
  rw [countChar_append, countChar_append, countChar_joinSep_pipe cells h]
  have h1 : countChar '|' "| " = 1 := rfl
  have h2 : countChar '|' " |" = 1 := rfl
  rw [h1, h2]
  have hlen : 0 < cells.length := List.length_pos.mpr hne
  omega

theorem mem_joinSep {c : Char} {sep : String} {xs : List String}
    (h : c ∈ (joinSep sep xs).data) :
    c ∈ sep.data ∨ ∃ x ∈ xs, c ∈ x.data := by
  induction xs with
  | nil => exact absurd h (by simp [joinSep])
  | cons x t ih =>
    cases t with
    | nil => exact Or.inr ⟨x, by simp, h⟩
    | cons y t2 =>
      have hrw : joinSep sep (x :: y :: t2) = x ++ sep ++ joinSep sep (y :: t2) := rfl
      rw [hrw, String.data_append, String.data_append] at h
      rcases List.mem_append.mp h with h1 | h1
      · rcases List.mem_append.mp h1 with h2 | h2
        · exact Or.inr ⟨x, by simp, h2⟩
        · exact Or.inl h2
      · rcases ih h1 with h2 | ⟨z, hz, hcz⟩
        · exact Or.inl h2
        · exact Or.inr ⟨z, by simp [hz], hcz⟩

theorem rowLine_no_newline (cells : List String)
    (h : ∀ x ∈ cells, '\n' ∉ x.data) : '\n' ∉ (rowLine cells).data := by
  unfold rowLine
  rw [String.data_append, String.data_append]
  intro hmem
  rcases List.mem_append.mp hmem with h1 | h1
  · rcases List.mem_append.mp h1 with h2 | h2
    · exact absurd h2 (by decide)
    · rcases mem_joinSep h2 with h3 | ⟨x, hx, hcx⟩
      · exact absurd h3 (by decide)
      · exact h x hx hcx
  · exact absurd h1 (by decide)

theorem splitCharAux_append (sep : Char) (a r : List Char) (h : sep ∉ a) :
    splitCharAux sep (a ++ sep :: r) = a :: splitCharAux sep r := by
  induction a with
  | nil => simp [splitCharAux]
  | cons c t ih =>
    have hc : ¬(c = sep) := fun hcs => h (by simp [hcs])
    have ht : sep ∉ t := fun hts => h (by simp [hts])
    rw [List.cons_append]
    rw [show splitCharAux sep (c :: (t ++ sep :: r)) =
      (if c = sep then [] :: splitCharAux sep (t ++ sep :: r)
       else match splitCharAux sep (t ++ sep :: r) with
            | [] => [[c]]
            | h :: rr => (c :: h) :: rr) from rfl]
    rw [if_neg hc, ih ht]

theorem splitCharAux_blocks (ls : List (List Char)) (h : ∀ l ∈ ls, '\n' ∉ l) :
    splitCharAux '\n' ((ls.map (· ++ ['\n'])).flatten) = ls ++ [[]] := by
  induction ls with
  | nil => rfl
  | cons a t ih =>
    rw [List.map_cons, List.flatten_cons, List.append_assoc, List.singleton_append]
    rw [splitCharAux_append '\n' a _ (h a (by simp))]
    rw [ih (fun l hl => h l (by simp [hl]))]
    rfl

theorem strConcat_data (xs : List String) :
    (strConcat xs).data = (xs.map String.data).flatten := by
  induction xs with
  | nil => rfl
  | cons a t ih =>
    show (a ++ strConcat t).data = _
    rw [String.data_append, ih, List.map_cons, List.flatten_cons]

theorem pyLines_blocks (ls : List String) (h : ∀ l ∈ ls, '\n' ∉ l.data) :
    pyLines (strConcat (ls.map (· ++ "\n"))) = ls := by
  unfold pyLines
  rw [strConcat_data, List.map_map]
  have hmap : (String.data ∘ fun l => l ++ "\n") = fun l : String => l.data ++ ['\n'] := by
    funext l
    exact String.data_append l "\n"
  rw [hmap]
  have hb : ls.map (fun l : String => l.data ++ ['\n']) =
      (ls.map String.data).map (· ++ ['\n']) := by
    rw [List.map_map]
    rfl
  rw [hb, splitCharAux_blocks _ ?hnl]
  case hnl =>
    intro l hl
    rw [List.mem_map] at hl
    obtain ⟨x, hx, rfl⟩ := hl
    exact h x hx
  unfold dropFinalEmpty
  rw [List.getLast?_concat, if_pos rfl, List.dropLast_concat, List.map_map]
  have hid : (fun l => (⟨l⟩ : String)) ∘ String.data = id := by
    funext l
    rfl
  rw [hid, List.map_id]

theorem emitRow_eq (n : Nat) (row : List (Option String)) :
    emitRow n row =
      (if row = [] then ""
       else if (row.map cleanCell).length ≠ n then ""
       else if (row.map cleanCell).all (· = "") then ""
       else rowLine (row.map cleanCell) ++ "\n") := rfl

theorem dataLines_cons (n : Nat) (row : List (Option String))
    (t : List (List (Option String))) :
    dataLines n (row :: t) =
      (if row = [] then dataLines n t
       else if (row.map cleanCell).length ≠ n then dataLines n t
       else if (row.map cleanCell).all (· = "") then dataLines n t
       else rowLine (row.map cleanCell) :: dataLines n t) := rfl

theorem strConcat_emitRow (n : Nat) (rest : List (List (Option String))) :
    strConcat (rest.map (emitRow n)) =
      strConcat ((dataLines n rest).map (· ++ "\n")) := by
  induction rest with
  | nil => rfl
  | cons row t ih =>
    have hcons : strConcat (List.map (emitRow n) (row :: t)) =
        emitRow n row ++ strConcat (List.map (emitRow n) t) := rfl
    rw [hcons, ih, emitRow_eq, dataLines_cons]
    by_cases h1 : row = []
    · rw [if_pos h1, if_pos h1]
      rfl
    · rw [if_neg h1, if_neg h1]
      by_cases h2 : (row.map cleanCell).length ≠ n
      · rw [if_pos h2, if_pos h2]
        rfl
      · rw [if_neg h2, if_neg h2]
        by_cases h3 : (row.map cleanCell).all (· = "")
        · rw [if_pos h3, if_pos h3]
          rfl
        · rw [if_neg h3, if_neg h3, List.map_cons]
          rfl

theorem mem_dataLines {l : String} {n : Nat} {rest : List (List (Option String))}
    (h : l ∈ dataLines n rest) :
    ∃ row ∈ rest, row ≠ [] ∧ (row.map cleanCell).length = n ∧
      l = rowLine (row.map cleanCell) := by
  induction rest with
  | nil => exact absurd h (by simp [dataLines])
  | cons row t ih =>
    rw [dataLines_cons] at h
    by_cases h1 : row = []
    · rw [if_pos h1] at h
      obtain ⟨r, hr, p⟩ := ih h
      exact ⟨r, by simp [hr], p⟩
    · rw [if_neg h1] at h
      by_cases h2 : (row.map cleanCell).length ≠ n
      · rw [if_pos h2] at h
        obtain ⟨r, hr, p⟩ := ih h
        exact ⟨r, by simp [hr], p⟩
      · rw [if_neg h2] at h
        by_cases h3 : (row.map cleanCell).all (· = "")
        · rw [if_pos h3] at h
          obtain ⟨r, hr, p⟩ := ih h
          exact ⟨r, by simp [hr], p⟩
        · rw [if_neg h3] at h
          rcases List.mem_cons.mp h with rfl | hm
          · exact ⟨row, by simp, h1, by omega, rfl⟩
          · obtain ⟨r, hr, p⟩ := ih hm
            exact ⟨r, by simp [hr], p⟩

theorem str_append_assoc (a b c : String) : a ++ b ++ c = a ++ (b ++ c) := by
  apply String.ext
  rw [String.data_append, String.data_append, String.data_append, String.data_append,
    List.append_assoc]

theorem worker_eq_blocks (row0 : List (Option String))
    (rest : List (List (Option String))) (h0 : ¬(row0 = []))
    (hh : ¬(row0.map cleanCell = [] ∨ (row0.map cleanCell).all (· = ""))) :
    table_to_markdown_worker (row0 :: rest) =
      strConcat ((rowLine (row0.map cleanCell) ::
        rowLine (List.replicate (row0.map cleanCell).length "---") ::
        dataLines (row0.map cleanCell).length rest).map (· ++ "\n")) := by
  have hw : table_to_markdown_worker (row0 :: rest) =
      (if row0 = [] then ""
       else if row0.map cleanCell = [] ∨ (row0.map cleanCell).all (· = "") then ""
       else rowLine (row0.map cleanCell) ++ "\n" ++
         rowLine (List.replicate (row0.map cleanCell).length "---") ++ "\n" ++
         strConcat (rest.map (emitRow (row0.map cleanCell).length))) := rfl
  rw [hw, if_neg h0, if_neg hh, strConcat_emitRow]
  have hr : strConcat ((rowLine (row0.map cleanCell) ::
      rowLine (List.replicate (row0.map cleanCell).length "---") ::
      dataLines (row0.map cleanCell).length rest).map (· ++ "\n")) =
    (rowLine (row0.map cleanCell) ++ "\n") ++
      ((rowLine (List.replicate (row0.map cleanCell).length "---") ++ "\n") ++
        strConcat ((dataLines (row0.map cleanCell).length rest).map (· ++ "\n"))) := rfl
  rw [hr]
  simp only [str_append_assoc]

-- ---------------------------------------------------------------------
-- C3
-- ---------------------------------------------------------------------

/-- C3 (amended): for every 2-D array of cell strings none of which
contains a `|` character, a non-empty result of the table normalizer
has at least two lines, its first line carries exactly N + 1 pipe
characters where N is the number of header cells (and N is at least 1),
its second line is the `| --- | ... |` separator row, and every further
line carries the same number of pipes as the first.  (The pipe counts
need the no-pipe hypothesis: a cell containing `|` adds its pipes to
the emitted line, which refutes the unconditional claim.) -/
theorem table_markdown_shape (rows : List (List String))
    (hp : ∀ r ∈ rows, ∀ c ∈ r, '|' ∉ c.data)
    (hne : table_to_markdown_worker (rows.map (fun r => r.map some)) ≠ "") :
    1 ≤ (rows.headD []).length ∧
    2 ≤ (pyLines (table_to_markdown_worker (rows.map (fun r => r.map some)))).length ∧
    countChar '|'
        ((pyLines (table_to_markdown_worker (rows.map (fun r => r.map some)))).headD "")
      = (rows.headD []).length + 1 ∧
    (pyLines (table_to_markdown_worker (rows.map (fun r => r.map some))))[1]?
      = some (rowLine (List.replicate (rows.headD []).length "---")) ∧
    ∀ l ∈ (pyLines (table_to_markdown_worker (rows.map (fun r => r.map some)))).drop 2,
      countChar '|' l = (rows.headD []).length + 1 := by
  cases rows with
  | nil => exact absurd rfl hne
  | cons r0 rest =>
    have hmap : (r0 :: rest).map (fun r => r.map some) =
        (r0.map some) :: rest.map (fun r => r.map some) := rfl
    by_cases h0 : r0.map some = []
    · refine absurd ?_ hne
      rw [hmap]
      have : table_to_markdown_worker ((r0.map some) :: rest.map (fun r => r.map some)) =
          (if r0.map some = [] then ""
           else if (r0.map some).map cleanCell = [] ∨
               ((r0.map some).map cleanCell).all (· = "") then ""
           else rowLine ((r0.map some).map cleanCell) ++ "\n" ++
             rowLine (List.replicate ((r0.map some).map cleanCell).length "---") ++ "\n" ++
             strConcat ((rest.map (fun r => r.map some)).map
               (emitRow ((r0.map some).map cleanCell).length))) := rfl
      rw [this, if_pos h0]
    · by_cases hh : (r0.map some).map cleanCell = [] ∨
          ((r0.map some).map cleanCell).all (· = "")
      · refine absurd ?_ hne
        rw [hmap]
        have : table_to_markdown_worker ((r0.map some) :: rest.map (fun r => r.map some)) =
            (if r0.map some = [] then ""
             else if (r0.map some).map cleanCell = [] ∨
                 ((r0.map some).map cleanCell).all (· = "") then ""
             else rowLine ((r0.map some).map cleanCell) ++ "\n" ++
               rowLine (List.replicate ((r0.map some).map cleanCell).length "---") ++ "\n" ++
               strConcat ((rest.map (fun r => r.map some)).map
                 (emitRow ((r0.map some).map cleanCell).length))) := rfl
        rw [this, if_neg h0, if_pos hh]
      · have hbr := worker_eq_blocks (r0.map some) (rest.map (fun r => r.map some)) h0 hh
        have hHnl : ∀ x ∈ (r0.map some).map cleanCell, '\n' ∉ x.data := by
          intro x hx
          rw [List.mem_map] at hx
          obtain ⟨oc, _, rfl⟩ := hx
          exact cleanCell_no_newline oc
        have hHpipe : ∀ x ∈ (r0.map some).map cleanCell, '|' ∉ x.data := by
          intro x hx
          rw [List.map_map, List.mem_map] at hx
          obtain ⟨c, hc, rfl⟩ := hx
          exact cleanCell_some_no_pipe (hp r0 (by simp) c hc)
        have hLnl : ∀ l ∈ (rowLine ((r0.map some).map cleanCell) ::
            rowLine (List.replicate ((r0.map some).map cleanCell).length "---") ::
            dataLines ((r0.map some).map cleanCell).length
              (rest.map (fun r => r.map some))), '\n' ∉ l.data := by
          intro l hl
          rcases List.mem_cons.mp hl with rfl | hl2
          · exact rowLine_no_newline _ hHnl
          · rcases List.mem_cons.mp hl2 with rfl | hl3
            · refine rowLine_no_newline _ ?_
              intro x hx
              rw [List.eq_of_mem_replicate hx]
              decide
            · obtain ⟨row, _, _, _, rfl⟩ := mem_dataLines hl3
              refine rowLine_no_newline _ ?_
              intro x hx
              rw [List.mem_map] at hx
              obtain ⟨oc, _, rfl⟩ := hx
              exact cleanCell_no_newline oc
        have hpy : pyLines (table_to_markdown_worker ((r0 :: rest).map (fun r => r.map some))) =
            rowLine ((r0.map some).map cleanCell) ::
            rowLine (List.replicate ((r0.map some).map cleanCell).length "---") ::
            dataLines ((r0.map some).map cleanCell).length
              (rest.map (fun r => r.map some)) := by
          rw [hmap, hbr]
          exact pyLines_blocks _ hLnl
        have hhdrne : (r0.map some).map cleanCell ≠ [] := by
          intro hc
          exact hh (Or.inl hc)
        have hn : ((r0.map some).map cleanCell).length = r0.length := by
          rw [List.length_map, List.length_map]
        have hr0 : (r0 :: rest).headD [] = r0 := rfl
        have hr0len : 1 ≤ r0.length := by
          have : r0 ≠ [] := by
            intro hc
            exact h0 (by rw [hc]; rfl)
          have := List.length_pos.mpr this
          omega
        refine ⟨by rw [hr0]; exact hr0len, ?_, ?_, ?_, ?_⟩
        · rw [hpy]
          simp
        · rw [hpy, hr0]
          have : (rowLine ((r0.map some).map cleanCell) ::
              rowLine (List.replicate ((r0.map some).map cleanCell).length "---") ::
              dataLines ((r0.map some).map cleanCell).length
                (rest.map (fun r => r.map some))).headD "" =
              rowLine ((r0.map some).map cleanCell) := rfl
          rw [this, countChar_rowLine _ hhdrne hHpipe, hn]
        · rw [hpy, hr0, List.getElem?_cons_succ, List.getElem?_cons_zero, hn]
        · rw [hpy, hr0]
          intro l hl
          have hl2 : l ∈ dataLines ((r0.map some).map cleanCell).length
              (rest.map (fun r => r.map some)) := hl
          obtain ⟨row, hrow, _, hlen, rfl⟩ := mem_dataLines hl2
          rw [List.mem_map] at hrow
          obtain ⟨r, hr, rfl⟩ := hrow
          have hcells : ∀ x ∈ (r.map some).map cleanCell, '|' ∉ x.data := by
            intro x hx
            rw [List.map_map, List.mem_map] at hx
            obtain ⟨c, hc, rfl⟩ := hx
            exact cleanCell_some_no_pipe (hp r (by simp [hr]) c hc)
          have hcne : (r.map some).map cleanCell ≠ [] := by
            intro hc
            rw [hc] at hlen
            simp at hlen
            omega
          rw [countChar_rowLine _ hcne hcells, hlen, hn]

/-- Witness for `table_markdown_shape` at the 2x2 table of scenario S2. -/
theorem table_markdown_shape_witness :
    (∀ r ∈ sampleTable, ∀ c ∈ r, '|' ∉ c.data) ∧
    table_to_markdown_worker (sampleTable.map (fun r => r.map some)) ≠ "" ∧
    (1 ≤ (sampleTable.headD []).length ∧
      2 ≤ (pyLines (table_to_markdown_worker (sampleTable.map (fun r => r.map some)))).length ∧
      countChar '|'
          ((pyLines (table_to_markdown_worker (sampleTable.map (fun r => r.map some)))).headD "")
        = (sampleTable.headD []).length + 1 ∧
      (pyLines (table_to_markdown_worker (sampleTable.map (fun r => r.map some))))[1]?
        = some (rowLine (List.replicate (sampleTable.headD []).length "---")) ∧
      ∀ l ∈ (pyLines (table_to_markdown_worker (sampleTable.map (fun r => r.map some)))).drop 2,
        countChar '|' l = (sampleTable.headD []).length + 1) :=
  ⟨by decide, by decide, table_markdown_shape sampleTable (by decide) (by decide)⟩

/-- C3 counterexample: the claim as stated fails without a no-pipe
restriction on the cells.  For the one-cell table whose cell is the
string `|`, the worker emits a non-empty table whose first line has 3
pipe characters although the header has N = 1 cell, so the first line
does not carry exactly N + 1 = 2 pipes. -/
theorem table_markdown_shape_counterexample :
    table_to_markdown_worker ([["|"]].map (fun r => r.map some)) ≠ "" ∧
    countChar '|'
        ((pyLines (table_to_markdown_worker ([["|"]].map (fun r => r.map some)))).headD "")
      ≠ ([["|"]].headD []).length + 1 := by
  decide

-- ---------------------------------------------------------------------
-- C10: supporting lemmas
-- ---------------------------------------------------------------------

theorem paraTexts_eq (body : List DocxBlock) :
    ((docxParagraphs body).filterMap fun p =>
      if pyStrip p.1 = "" then none else some (pyStrip p.1)) =
    simpleParaTexts body := by
  induction body with
  | nil => rfl
  | cons b rest ih =>
    cases b with
    | para t imgs =>
      simp only [docxParagraphs, List.filterMap_cons] at ih ⊢
      by_cases h : pyStrip t = ""
      · simp only [simpleParaTexts, if_pos h, ih]
      · simp only [simpleParaTexts, if_neg h, ih]
    | table rows =>
      simp only [docxParagraphs, List.filterMap_cons] at ih ⊢
      simp only [simpleParaTexts, ih]

theorem rowTexts_eq (body : List DocxBlock) :
    ((docxTables body).flatMap fun rows =>
      rows.filterMap fun row =>
        if pyStrip (joinSep " | " (row.map pyStrip)) = "" then none
        else some (joinSep " | " (row.map pyStrip))) =
    simpleRowTexts body := by
  induction body with
  | nil => rfl
  | cons b rest ih =>
    cases b with
    | para t imgs =>
      simp only [docxTables, List.filterMap_cons] at ih ⊢
      simp only [simpleRowTexts, ih]
    | table rows =>
      simp only [docxTables, List.filterMap_cons, List.flatMap_cons] at ih ⊢
      simp only [simpleRowTexts, ih]

theorem docxTables_erase (body : List DocxBlock) :
    docxTables (eraseImages body) = docxTables body := by
  induction body with
  | nil => rfl
  | cons b rest ih =>
    cases b with
    | para t imgs => simp only [eraseImages, docxTables, List.map_cons, List.filterMap_cons] at ih ⊢; exact ih
    | table rows => simp only [eraseImages, docxTables, List.map_cons, List.filterMap_cons] at ih ⊢; rw [ih]

theorem docxParagraphs_erase (body : List DocxBlock) :
    docxParagraphs (eraseImages body) =
      (docxParagraphs body).map fun p => (p.1, ([] : List (List Nat))) := by
  induction body with
  | nil => rfl
  | cons b rest ih =>
    cases b with
    | para t imgs =>
      simp only [eraseImages, docxParagraphs, List.map_cons, List.filterMap_cons] at ih ⊢
      rw [ih]
    | table rows =>
      simp only [eraseImages, docxParagraphs, List.map_cons, List.filterMap_cons] at ih ⊢
      exact ih

-- ---------------------------------------------------------------------
-- C10
-- ---------------------------------------------------------------------

/-- C10 (amended): the simple DOCX fallback emits the non-empty
paragraph texts first, in paragraph order, and only afterwards every
table row whose " | "-joined stripped-cell text is not blank (a row
with at most one cell, all blank, is dropped), all joined by "\n\n";
the original body interleaving of paragraphs and tables is thus not
preserved, and the embedded images never influence the output. -/
theorem docx_simple_fallback (body : List DocxBlock) :
    parse_simple body =
      joinSep "\n\n" (simpleParaTexts body ++ simpleRowTexts body) ∧
    parse_simple body = parse_simple (eraseImages body) := by
  constructor
  · unfold parse_simple
    rw [paraTexts_eq, rowTexts_eq]
  · unfold parse_simple
    rw [docxTables_erase, docxParagraphs_erase, List.filterMap_map]
    rfl

/-- C10 counterexample against the literal claim: in `c10Body` the
table's only row is a single blank cell; the fallback drops it, while
the literal rendering of the claim keeps it, so the two differ. -/
theorem docx_simple_fallback_counterexample :
    parse_simple c10Body = "A" ∧
    joinSep "\n\n" (simpleParaTexts c10Body ++ allRowTexts c10Body) = "A\n\n" ∧
    parse_simple c10Body ≠
      joinSep "\n\n" (simpleParaTexts c10Body ++ allRowTexts c10Body) := by
  decide

-- ---------------------------------------------------------------------
-- C1
-- ---------------------------------------------------------------------

/-- C1 (the code evaluated at the failing input): for the S2 document
the DOCX pipeline produces exactly the content the claim expects, but
`DocxParser.parse` returns it as a bare string, so the server's
`result.metadata` access raises `AttributeError` and `ParseFile`
answers with an INTERNAL error response instead of the claimed
successful response carrying `table_count == 1`. -/
theorem docx_s2_internal_error :
    parse_advanced noDecode noOcr s2Body =
      "Intro.\n\n| A | B |\n| --- | --- |\n| 1 | 2 |\n" ∧
    buildParseResponse (docxParseValue noDecode noOcr s2Body) =
      .internalError ∧
    ∀ c m, buildParseResponse (docxParseValue noDecode noOcr s2Body) ≠
      .success c m := by
  refine ⟨by decide, rfl, fun c m h => GrpcResponse.noConfusion h⟩

-- ---------------------------------------------------------------------
-- C2
-- ---------------------------------------------------------------------

/-- C2 (the code evaluated at the failing input): for the two S4 pages
the assembled PDF content labels the surviving image of page 1 with
number 2 — the count of paths lexicographically at most its own path
(which includes the path itself) plus one — so the placeholder is
rendered as "[图像 2 OCR 内容]" and the content differs from the
claimed "[图像 1 OCR 内容]" rendering. -/
theorem pdf_s4_image_number_off_by_one :
    pdfAssemble s4Ocr [s4Page0, s4Page1] =
      .ok "Hello.\n\n--- Page Break ---\n\n[图像 2 OCR 内容]:\nSTOP" ∧
    pdfAssemble s4Ocr [s4Page0, s4Page1] ≠
      .ok "Hello.\n\n--- Page Break ---\n\n[图像 1 OCR 内容]:\nSTOP" := by
  have h1 : pdfAssemble s4Ocr [s4Page0, s4Page1] =
      .ok "Hello.\n\n--- Page Break ---\n\n[图像 2 OCR 内容]:\nSTOP" := by
    rfl
  refine ⟨h1, ?_⟩
  rw [h1]
  intro hc
  exact absurd (Except.ok.inj hc) (by decide)

-- ---------------------------------------------------------------------
-- C5
-- ---------------------------------------------------------------------

/-- C5: the assembled PDF content does not depend on the completion
order of the page workers — any two permutations of the collected
`PageData` list (with the distinct page numbers the parser produces)
assemble to the same string — and the assembly renders the pages
sorted by increasing page number, each page rendering its fragments in
increasing order-index order. -/
theorem pdf_assembly_completion_order_invariant
    (c1 c2 : List PageData) (ocrMap : String → Option String)
    (hperm : c1.Perm c2) (hnd : (c1.map PageData.pageNum).Nodup) :
    pdfAssemble ocrMap c1 = pdfAssemble ocrMap c2 ∧
    ∃ sorted : List PageData,
      sorted.Perm c1 ∧
      List.Sorted (fun a b => a.pageNum ≤ b.pageNum) sorted ∧
      pdfAssemble ocrMap c1 = pdfAssembleSorted ocrMap sorted ∧
      ∀ pd ∈ sorted, ∃ frags,
        frags.Perm pd.contentParts ∧
        List.Sorted (fun x y => x.2.2 ≤ y.2.2) frags ∧
        renderPage ocrMap (imageToPageMap sorted) pd =
          renderPageFrags ocrMap (imageToPageMap sorted) frags := by
  haveI : IsTotal PageData (fun a b => a.pageNum ≤ b.pageNum) :=
    ⟨fun a b => Nat.le_total _ _⟩
  haveI : IsTrans PageData (fun a b => a.pageNum ≤ b.pageNum) :=
    ⟨fun _ _ _ hab hbc => Nat.le_trans hab hbc⟩
  haveI : IsAntisymm PageData (fun a b => a.pageNum < b.pageNum) :=
    ⟨fun _ _ h1 h2 => absurd (Nat.lt_trans h1 h2) (Nat.lt_irrefl _)⟩
  haveI : IsTotal (ContentType × String × Nat) (fun x y => x.2.2 ≤ y.2.2) :=
    ⟨fun a b => Nat.le_total _ _⟩
  haveI : IsTrans (ContentType × String × Nat) (fun x y => x.2.2 ≤ y.2.2) :=
    ⟨fun _ _ _ hab hbc => Nat.le_trans hab hbc⟩
  have hperm1 : (sortPages c1).Perm c1 := List.perm_insertionSort _ _
  have hperm2 : (sortPages c2).Perm c2 := List.perm_insertionSort _ _
  have hs1 : List.Sorted (fun a b : PageData => a.pageNum ≤ b.pageNum) (sortPages c1) :=
    List.sorted_insertionSort _ c1
  have hs2 : List.Sorted (fun a b : PageData => a.pageNum ≤ b.pageNum) (sortPages c2) :=
    List.sorted_insertionSort _ c2
  have hstrict : ∀ (c : List PageData),
      ((c.map PageData.pageNum).Nodup) →
      List.Sorted (fun a b : PageData => a.pageNum ≤ b.pageNum) (sortPages c) →
      List.Sorted (fun a b : PageData => a.pageNum < b.pageNum) (sortPages c) := by
    intro c hc hsort
    have hpermc : (sortPages c).Perm c := List.perm_insertionSort _ _
    have hndc : ((sortPages c).map PageData.pageNum).Nodup :=
      ((hpermc.map PageData.pageNum).symm).nodup hc
    have hne : List.Pairwise (fun a b : PageData => a.pageNum ≠ b.pageNum) (sortPages c) :=
      List.pairwise_map.mp hndc
    exact (hsort.and hne).imp fun hab => Nat.lt_of_le_of_ne hab.1 hab.2
  have hnd2 : (c2.map PageData.pageNum).Nodup := ((hperm.map PageData.pageNum)).nodup hnd
  have hkey : sortPages c1 = sortPages c2 := by
    have hp12 : (sortPages c1).Perm (sortPages c2) :=
      hperm1.trans (hperm.trans hperm2.symm)
    exact List.eq_of_perm_of_sorted hp12 (hstrict c1 hnd hs1) (hstrict c2 hnd2 hs2)
  constructor
  · unfold pdfAssemble
    rw [hkey]
  · refine ⟨sortPages c1, hperm1, hs1, rfl, fun pd _ => ?_⟩
    exact ⟨sortFrags pd.contentParts, List.perm_insertionSort _ _,
      List.sorted_insertionSort _ _, rfl⟩

/-- Witness for `pdf_assembly_completion_order_invariant`: the two
orders of delivering the witness pages assemble identically. -/
theorem pdf_assembly_completion_order_invariant_witness :
    [wPage1, wPage0].Perm [wPage0, wPage1] ∧
    ([wPage1, wPage0].map PageData.pageNum).Nodup ∧
    pdfAssemble noPathOcr [wPage1, wPage0] = pdfAssemble noPathOcr [wPage0, wPage1] :=
  ⟨by decide, by decide,
   (pdf_assembly_completion_order_invariant [wPage1, wPage0] [wPage0, wPage1]
      noPathOcr (by decide) (by decide)).1⟩

-- ---------------------------------------------------------------------
-- C7
-- ---------------------------------------------------------------------

/-- C7 counterexample: the ASCII keyword pattern separates word groups
with `\s*/\s*`, whose whitespace is optional, so the slash-only input
`a/b/c/d` is rewritten rather than left untouched. -/
theorem keyword_separators_counterexample :
    optimize_keyword_separators "a/b/c/d" ≠ "a/b/c/d" := by decide

/-- C7 (amended): the keyword-separator rule rewrites runs of two or
more ASCII word groups joined by a slash with optional surrounding
whitespace: `a/b/c/d` becomes `a, b, c, d 等内容`, while the CJK input
`神经元/激活函数/前向传播` becomes `神经元、激活函数、前向传播等内容`
as claimed. -/
theorem keyword_separators_examples :
    optimize_keyword_separators "神经元/激活函数/前向传播" =
      "神经元、激活函数、前向传播等内容" ∧
    optimize_keyword_separators "a/b/c/d" = "a, b, c, d 等内容" := by
  constructor
  · decide
  · decide

-- ---------------------------------------------------------------------
-- C4
-- ---------------------------------------------------------------------

/-- C4 (the code evaluated at the failing input): the narrative
optimizer is not idempotent.  On `a/b/中文` the first pass rewrites
the ASCII keyword chain `a/b` and appends the CJK suffix `等内容`
immediately before the retained slash; on the second pass the CJK
keyword rule then matches `等内容/中文` and rewrites the text again. -/
theorem optimizer_not_idempotent :
    optimize "a/b/中文" = "a, b 等内容/中文。" ∧
    optimize (optimize "a/b/中文") = "a, b 等内容、中文等内容。" ∧
    optimize (optimize "a/b/中文") ≠ optimize "a/b/中文" := by
  refine ⟨by decide, by decide, by decide⟩

end Parsers
